import Mathlib

/-!
Verification development for the circuit artifact pipeline and proof
lifecycle manager of `avalanche-circom-kit-hardhat`.

The shallow embedding below translates the relevant parts of
`utils/Circuit.ts` (the `Circuit` class: constructor, `ensureCompiled`,
`runCommand`, `findCircom2`, `generateProof`, `verifyProof`) and of
`contracts/Multiplier.sol` (`check`) into Lean definitions.

Conventions of the embedding:
* The filesystem is a list of the paths of existing files/directories
  (`existsSync p` is list membership); paths are the exact strings that
  `node:path.join` produces on a POSIX system.
* The external tools (the circom2 compiler and the snarkjs CLI) are out of
  process; their observable behaviour (spawn error, exit status, files
  written on success) is an environment parameter, and each spawn is
  recorded in an invocation log.
* The snarkjs in-process library (`groth16.fullProve`, `groth16.verify`,
  `zKey.exportVerificationKey`) is an external black box; it is passed in
  as data (the produced proof / the verification verdict).
* Thrown JavaScript errors are modelled as `Except String`, the carried
  string being the `Error` message.
-/

namespace CircomKit

/-- `node:path.join` of two segments on POSIX: concatenation with "/".
The source only joins non-empty relative segments, where this is exact. -/
def joinP (a b : String) : String := a ++ "/" ++ b

/-- Does `pat` occur as a prefix of `l`?  Executable model of
`String.prototype.startsWith` on the underlying character lists. -/
def prefixMatch : List Char → List Char → Bool
  | _, [] => true
  | [], _ :: _ => false
  | a :: as, b :: bs => (a == b) && prefixMatch as bs

/-- Does `sub` occur as a contiguous sublist of `l`?  Executable model of
`String.prototype.includes` on the underlying character lists. -/
def containsSub : List Char → List Char → Bool
  | [], sub => prefixMatch [] sub
  | l@(_ :: t), sub => prefixMatch l sub || containsSub t sub

/-- JavaScript `s.startsWith(p)`. -/
def jsStartsWith (s p : String) : Bool := prefixMatch s.data p.data

/-- JavaScript `s.includes(sub)`. -/
def jsIncludes (s sub : String) : Bool := containsSub s.data sub.data

/-! ## Data model: proofs and their two serializations (`utils/Circuit.ts`) -/

/-- The native snarkjs proof shape (`interface Proof`): coordinate lists of
decimal strings plus protocol/curve tags. -/
structure Proof where
  pi_a : List String
  pi_b : List (List String)
  pi_c : List String
  protocol : String
  curve : String
deriving DecidableEq, Repr

/-- `interface ProofData`: a native proof paired with its public signals. -/
structure ProofData where
  proof : Proof
  publicSignals : List String
deriving DecidableEq, Repr

/-- `interface OnchainProof`.  The TypeScript type is a tuple type
`[string, string]` etc.; at runtime these are arrays, so lists model them
and the length-2 facts are provable rather than definitional. -/
structure OnchainProof where
  a : List String
  b : List (List String)
  c : List String
deriving DecidableEq, Repr

/-- `interface OnchainProofData`. -/
structure OnchainProofData where
  proof : OnchainProof
  publicSignals : List String
deriving DecidableEq, Repr

/-- `interface ProofResults`. -/
structure ProofResults where
  offchain : ProofData
  onchain : OnchainProofData
deriving DecidableEq, Repr

/-- The on-chain re-encoding built inside `generateProof`:
`a = [pi_a[0], pi_a[1]]`, `b = [[pi_b[0][1], pi_b[0][0]], [pi_b[1][1],
pi_b[1][0]]]`, `c = [pi_c[0], pi_c[1]]`, each value passed through
`.toString()` (the identity on the decimal strings snarkjs produces).
JavaScript indexing past the end is modelled by `getD` with a default that
is never reached for proofs satisfying the stated length bounds. -/
def toOnchainProof (p : Proof) : OnchainProof :=
  { a := [p.pi_a.getD 0 "", p.pi_a.getD 1 ""]
  , b := [ [(p.pi_b.getD 0 []).getD 1 "", (p.pi_b.getD 0 []).getD 0 ""]
         , [(p.pi_b.getD 1 []).getD 1 "", (p.pi_b.getD 1 []).getD 0 ""] ]
  , c := [p.pi_c.getD 0 "", p.pi_c.getD 1 ""] }

/-- The value `generateProof` returns once `groth16.fullProve` has
delivered `{ proof, publicSignals }`: the off-chain pair verbatim, and the
on-chain re-encoding sharing the very same `publicSignals`. -/
def mkProofResults (pd : ProofData) : ProofResults :=
  { offchain := pd
  , onchain := { proof := toOnchainProof pd.proof
               , publicSignals := pd.publicSignals } }

/-- Format adapter as §4.6 of the spec words it (for comparison with
`toOnchainProof`): A and C are passed through unchanged as 2-tuples, each
inner row of the 2×2 structure B has its two coordinates exchanged. -/
def specFormatAdapter (p : Proof) : OnchainProof :=
  { a := p.pi_a.take 2
  , b := (p.pi_b.take 2).map (fun row => (row.take 2).reverse)
  , c := p.pi_c.take 2 }

/-! ## The stderr-filtering hook installed by `generateProof` -/

/-- A stderr write function: a chunk and the previously written chunks give
the new sequence of written chunks. -/
def WriteFn : Type := String → List String → List String

/-- The process stderr as the source first finds it: every chunk reaches
the stream. -/
def originalWrite : WriteFn := fun chunk out => out ++ [chunk]

/-- The hook's filtering test:
`msg.includes('Could not allocate') && msg.includes('severe instability')`. -/
def suppressChunk (chunk : String) : Bool :=
  jsIncludes chunk "Could not allocate" && jsIncludes chunk "severe instability"

/-- The replacement `process.stderr.write` installed by `generateProof`:
a suppressed chunk is swallowed (the hook only runs the callback and
returns `true`), any other chunk is forwarded to the saved original
write function unchanged. -/
def hookedWrite (original : WriteFn) : WriteFn :=
  fun chunk out => if suppressChunk chunk then out else original chunk out

/-- The mutable process state touched by `generateProof`: the current
`process.stderr.write` and the chunks written to the underlying stream. -/
structure PState where
  writer : WriteFn
  sink : List String

/-- JavaScript `try { body } finally { fin }`: the finalizer runs on the
state whether the body succeeded or threw. -/
def tryFinallyS {σ ε α : Type} (body : σ → Except ε α × σ) (fin : σ → σ)
    (s : σ) : Except ε α × σ :=
  let r := body s
  (r.1, fin r.2)

/-- `generateProof`, with the black-box `groth16.fullProve` supplied as
data: `chunks` are the stderr chunks the proving engine emits during the
call and `outcome` is its result (a proof or a thrown error).  The method
saves the original write function, installs the hook, runs the body, and
restores the original in a `finally` block. -/
def generateProofRun (chunks : List String) (outcome : Except String ProofData)
    (s : PState) : Except String ProofResults × PState :=
  let original := s.writer
  let s1 : PState := { s with writer := hookedWrite original }
  tryFinallyS
    (fun st =>
      let st2 : PState :=
        { st with sink := chunks.foldl (fun acc c => st.writer c acc) st.sink }
      (outcome.map mkProofResults, st2))
    (fun st => { st with writer := original })
    s1

/-! ## Artifact paths (the `Circuit` constructor's path computations) -/

/-- `join("circuits", "build")`. -/
def buildDir : String := joinP "circuits" "build"

/-- `join(buildDir, circuitName + "_js", circuitName + ".wasm")`. -/
def wasmPath (n : String) : String :=
  joinP (joinP buildDir (n ++ "_js")) (n ++ ".wasm")

/-- `join(buildDir, circuitName + ".zkey")`. -/
def zkeyPath (n : String) : String := joinP buildDir (n ++ ".zkey")

/-- `join(buildDir, circuitName + ".r1cs")`. -/
def r1csPath (n : String) : String := joinP buildDir (n ++ ".r1cs")

/-- `join(buildDir, "pot8_0000.ptau")` (ptauSize is the constant 8). -/
def ptauPath : String := joinP buildDir "pot8_0000.ptau"

/-- `join(buildDir, "pot8_0000_final.ptau")`. -/
def ptauPreparedPath : String := joinP buildDir "pot8_0000_final.ptau"

/-! ## Toolchain locator: `findCircom2` -/

/-- `join(process.cwd(), "node_modules", "circom2", "cli.js")`. -/
def cliJsPath (cwd : String) : String :=
  joinP (joinP (joinP cwd "node_modules") "circom2") "cli.js"

/-- `join(process.cwd(), "node_modules", ".bin", "circom2")`. -/
def binAliasPath (cwd : String) : String :=
  joinP (joinP (joinP cwd "node_modules") ".bin") "circom2"

/-- `join(process.cwd(), "node_modules", ".pnpm")`. -/
def pnpmDirPath (cwd : String) : String :=
  joinP (joinP cwd "node_modules") ".pnpm"

/-- `join(pnpmDir, entry, "node_modules", "circom2", "cli.js")`. -/
def pnpmCandidatePath (cwd entry : String) : String :=
  joinP (joinP (joinP (joinP (pnpmDirPath cwd) entry) "node_modules") "circom2") "cli.js"

/-- The `for (const entry of entries)` loop of `findCircom2`: each entry
starting with "circom2@" whose `cli.js` exists is `unshift`ed onto the
path list, so the result holds the found candidates in reverse discovery
order (last discovered first). -/
def pnpmUnshift (fs : List String) (cwd : String) (es : List String) : List String :=
  es.foldl
    (fun acc e =>
      if jsStartsWith e "circom2@" then
        let c := pnpmCandidatePath cwd e
        if fs.contains c then c :: acc else acc
      else acc)
    []

/-- The pnpm-store candidates in discovery order (for stating theorems
about `pnpmUnshift`, which reverses them). -/
def matchedCandidates (fs : List String) (cwd : String) (es : List String) : List String :=
  es.filterMap
    (fun e =>
      if jsStartsWith e "circom2@" && fs.contains (pnpmCandidatePath cwd e) then
        some (pnpmCandidatePath cwd e)
      else none)

/-- `findCircom2`.  `fs` is the set of existing paths; `pnpmList` is the
outcome of `readdirSync` on the `.pnpm` store (`none` models a throwing
read, which the source catches and ignores; it is only consulted when the
store directory exists).  The final loop returns the first path in
`possiblePaths` that exists, else `null`. -/
def findCircom2 (fs : List String) (pnpmList : Option (List String))
    (cwd : String) : Option String :=
  let base := [cliJsPath cwd, binAliasPath cwd]
  let possiblePaths :=
    if fs.contains (pnpmDirPath cwd) then
      match pnpmList with
      | some es => pnpmUnshift fs cwd es ++ base
      | none => base
    else base
  possiblePaths.find? (fun p => fs.contains p)

/-! ## External tool environment and the pipeline -/

/-- The observable outcome of one `spawnSync` call: `spawnError` is the
message of `result.error` when the process failed to spawn, otherwise
`status` is the exit code. -/
structure CmdOutcome where
  spawnError : Option String
  status : Int
deriving DecidableEq, Repr

/-- The external world the pipeline talks to: the circom2 compiler run
(and the files a successful run writes into the build tree) and the three
snarkjs CLI invocations.  A successful snarkjs invocation writes exactly
its output artifact. -/
structure ToolEnv where
  circom : CmdOutcome
  circomCreates : List String
  ptauNew : CmdOutcome
  ptauPrepare : CmdOutcome
  zkeySetup : CmdOutcome
deriving DecidableEq, Repr

/-- The external invocations the pipeline can perform, for the log. -/
inductive Invocation where
  | circomCompile
  | ptauNew
  | ptauPrepare
  | zkeySetup
deriving DecidableEq, Repr

/-- The error message of the missing-toolchain throw in `ensureCompiled`. -/
def circom2NotFoundMsg : String :=
  "circom2 not found. Install it with: pnpm add -D circom2"

/-- The prefix the compilation `catch` block puts on every error it
rewraps. -/
def compileErrHead : String := "Circuit compilation error: "

/-- The `catch` block of the compile stage:
`Circuit compilation error: ${error.message}. Compile manually with: ...`. -/
def compileWrap (n msg : String) : String :=
  compileErrHead ++
    (msg ++ (". Compile manually with: cd circuits && circom2 " ++
      (n ++ ".circom --r1cs --wasm --sym -o build")))

/-- `runCommand("pnpm", args)` for one snarkjs invocation: a spawn error
rethrows the error, a non-zero status throws
`Command "pnpm" exited with code N`; on success the invocation is logged
and the output artifact now exists. -/
def runSnarkjs (o : CmdOutcome) (creates : List String) (inv : Invocation)
    (fs : List String) (log : List Invocation) :
    Except String (List String × List Invocation) :=
  match o.spawnError with
  | some m => .error m
  | none =>
    if o.status == 0 then .ok (fs ++ creates, log ++ [inv])
    else .error ("Command \"pnpm\" exited with code " ++ toString o.status)

/-- The first `if` of `ensureCompiled()`: compile the circuit iff the wasm
witness generator is missing.  The locator failure throws
`circom2NotFoundMsg` outside the `try`, while every failure inside the
`try` (spawn error, non-zero exit, missing wasm after an apparently
successful run) is rewrapped by the `catch` into a `compileWrap` message.
(The source's `cli.js`-vs-binary branch spawns the same arguments with the
same error handling in both arms, so it is modelled once.) -/
def compileStage (env : ToolEnv) (pnpmList : Option (List String))
    (cwd n : String) (fs : List String) :
    Except String (List String × List Invocation) :=
  if fs.contains (wasmPath n) then .ok (fs, [])
  else
    match findCircom2 fs pnpmList cwd with
    | none => .error circom2NotFoundMsg
    | some _ =>
      match env.circom.spawnError with
      | some m => .error (compileWrap n m)
      | none =>
        if env.circom.status == 0 then
          if (fs ++ env.circomCreates).contains (wasmPath n) then
            .ok (fs ++ env.circomCreates, [Invocation.circomCompile])
          else .error (compileWrap n "Circuit compilation failed. Check errors above.")
        else
          .error (compileWrap n
            ("circom2 exited with code " ++ toString env.circom.status))

/-- The inner ptau block of `ensureCompiled()`: when the phase-2 prepared
parameter file is missing, first create the raw ptau (if also missing) and
then prepare it for phase 2. -/
def ptauStage (env : ToolEnv) (fs : List String) (log : List Invocation) :
    Except String (List String × List Invocation) :=
  if fs.contains ptauPreparedPath then .ok (fs, log)
  else
    (if fs.contains ptauPath then Except.ok (fs, log)
     else runSnarkjs env.ptauNew [ptauPath] .ptauNew fs log).bind
      (fun r => runSnarkjs env.ptauPrepare [ptauPreparedPath] .ptauPrepare r.1 r.2)

/-- The second `if` of `ensureCompiled()`: derive the zkey iff it is
missing, running the ptau block first and then the Groth16 setup. -/
def zkeyStage (env : ToolEnv) (n : String) (fs : List String)
    (log : List Invocation) :
    Except String (List String × List Invocation) :=
  if fs.contains (zkeyPath n) then .ok (fs, log)
  else
    (ptauStage env fs log).bind
      (fun r => runSnarkjs env.zkeySetup [zkeyPath n] .zkeySetup r.1 r.2)

/-- `ensureCompiled()`: the compile stage followed by the zkey stage. -/
def ensureCompiled (env : ToolEnv) (pnpmList : Option (List String))
    (cwd n : String) (fs : List String) :
    Except String (List String × List Invocation) :=
  (compileStage env pnpmList cwd n fs).bind
    (fun r => zkeyStage env n r.1 r.2)

/-- The `Circuit` constructor: computes the paths, creates the build
directory when missing (`mkdirSync`, not an external tool invocation), and
runs `ensureCompiled`. -/
def constructCircuit (env : ToolEnv) (pnpmList : Option (List String))
    (cwd n : String) (fs : List String) :
    Except String (List String × List Invocation) :=
  let fs0 := if fs.contains buildDir then fs else fs ++ [buildDir]
  ensureCompiled env pnpmList cwd n fs0

/-- The environment hypotheses under which every external run succeeds and
the compiler writes the expected wasm artifact — and, like the real
circom2, writes only compilation artifacts (neither the key nor the
ceremony files). -/
def GoodEnv (env : ToolEnv) (n : String) : Prop :=
  env.circom.spawnError = none ∧ env.circom.status = 0 ∧
  env.circomCreates.contains (wasmPath n) = true ∧
  env.circomCreates.contains (zkeyPath n) = false ∧
  env.circomCreates.contains ptauPreparedPath = false ∧
  env.ptauNew.spawnError = none ∧ env.ptauNew.status = 0 ∧
  env.ptauPrepare.spawnError = none ∧ env.ptauPrepare.status = 0 ∧
  env.zkeySetup.spawnError = none ∧ env.zkeySetup.status = 0

/-- Whether an okay pipeline result's filesystem contains a path. -/
def resultHas (r : Except String (List String × List Invocation))
    (p : String) : Bool :=
  match r with
  | .ok fsl => fsl.1.contains p
  | .error _ => false

/-- The invocation log of an okay pipeline result. -/
def resultLog (r : Except String (List String × List Invocation)) :
    List Invocation :=
  match r with
  | .ok fsl => fsl.2
  | .error _ => []

/-! ## `verifyProof` and the snarkjs verification black box -/

/-- The in-process snarkjs operations `verifyProof` uses.  Modelled from
the spec: the proving library is an external collaborator (§1, §4.3);
§4.5 contracts `groth16.verify` to return a boolean verdict — `false`,
not a thrown error, for any cryptographically invalid combination.  The
total `Bool`-valued field embeds exactly that contract. -/
structure SnarkjsLib (VKey : Type) where
  exportVerificationKey : String → VKey
  groth16Verify : VKey → List String → Proof → Bool

/-- `Circuit.verifyProof`: export the verification key from the zkey
artifact and run the native verification algorithm, forwarding its
verdict. -/
def verifyProof {VKey : Type} (lib : SnarkjsLib VKey) (zkey : String)
    (proof : Proof) (publicSignals : List String) : Bool :=
  let vkey := lib.exportVerificationKey zkey
  lib.groth16Verify vkey publicSignals proof

/-! ## `Multiplier.check` (`contracts/Multiplier.sol`) -/

/-- Outcome of an external call to `Multiplier.check`: a normal return
(with its return value and the emitted `Verified(resultC, caller)` events,
each a pair of uint256 values), a `require`-style revert with a reason
string, or a Solidity `Panic(code)` revert. -/
inductive CallResult where
  | success (ret : Bool) (events : List (Nat × Nat))
  | revertWith (msg : String)
  | panic (code : Nat)
deriving DecidableEq, Repr

/-- Is the call outcome a normal return? -/
def CallResult.isSuccess : CallResult → Bool
  | .success _ _ => true
  | _ => false

/-- Does the call outcome revert (reason-string revert or panic)? -/
def CallResult.isRevert : CallResult → Bool
  | .revertWith _ => true
  | .panic _ => true
  | .success _ _ => false

/-- The configured verifier contract, as `check` observes it: its
`verifyProof(_pA, _pB, _pC, _pubSignals)` view returning a boolean. -/
def VerifierFn : Type :=
  (Nat × Nat) → ((Nat × Nat) × (Nat × Nat)) → (Nat × Nat) → List Nat → Bool

/-- `Multiplier.check`: call the verifier, `require(ok, "invalid proof")`,
then `emit Verified(_pubSignals[0], msg.sender)` — indexing an empty
calldata array raises Solidity `Panic(0x32)` (= 50, array access out of
bounds) — and return `true`. -/
def check (verifier : VerifierFn) (pA : Nat × Nat)
    (pB : (Nat × Nat) × (Nat × Nat)) (pC : Nat × Nat)
    (pubSignals : List Nat) (sender : Nat) : CallResult :=
  let ok := verifier pA pB pC pubSignals
  if !ok then .revertWith "invalid proof"
  else
    match pubSignals with
    | [] => .panic 50
    | s0 :: _ => .success true [(s0, sender)]

/-! ## Concrete demonstration data (shared by witnesses) -/

/-- A concrete native proof shape as snarkjs emits it (projective triples
for A and C, three coordinate pairs for B). -/
def demoProofA : Proof :=
  { pi_a := ["1", "2", "1"]
  , pi_b := [["3", "4"], ["5", "6"], ["1", "0"]]
  , pi_c := ["7", "8", "1"]
  , protocol := "groth16"
  , curve := "bn128" }

/-- A concrete fullProve result. -/
def demoPD : ProofData := { proof := demoProofA, publicSignals := ["33"] }

/-- A successful external command. -/
def demoOutcomeOk : CmdOutcome := { spawnError := none, status := 0 }

/-- An environment where every external run succeeds and the compiler
writes the multiplier2 artifacts. -/
def demoGoodEnv : ToolEnv :=
  { circom := demoOutcomeOk
  , circomCreates := [wasmPath "multiplier2", r1csPath "multiplier2"]
  , ptauNew := demoOutcomeOk
  , ptauPrepare := demoOutcomeOk
  , zkeySetup := demoOutcomeOk }

/-- A verifier contract that accepts every proof (like the repository's
`MockVerifier` with `shouldVerify = true`). -/
def constTrueVerifier : VerifierFn := fun _ _ _ _ => true

/-! ## Helper lemmas -/

/-- The first two elements of a list of length at least two. -/
theorem take_two_of_le {α : Type} (l : List α) (d : α) (h : 2 ≤ l.length) :
    l.take 2 = [l.getD 0 d, l.getD 1 d] := by
  cases l with
  | nil => simp at h
  | cons a t =>
    cases t with
    | nil => simp at h
    | cons b t2 => simp [List.getD]

/-! ## C9 -/

/-- C9: for every successful `generateProof` call, the on-chain result's
`publicSignals` is the very same sequence as the off-chain result's. -/
theorem generateProof_signals_shared (pd : ProofData) (chunks : List String)
    (s : PState) :
    (generateProofRun chunks (Except.ok pd) s).1 = Except.ok (mkProofResults pd)
    ∧ (mkProofResults pd).onchain.publicSignals
        = (mkProofResults pd).offchain.publicSignals :=
  ⟨rfl, rfl⟩

/-! ## C1 -/

/-- C1: the on-chain proof in a `generateProof` result is the native proof
re-encoded with A and C passed through as 2-tuples and each inner row of B
coordinate-swapped (stated against `specFormatAdapter`, the spec-side
wording of §4.6), and the on-chain tuple components all have length 2. -/
theorem generateProof_onchain_format (pd : ProofData) (chunks : List String)
    (s : PState)
    (ha : 2 ≤ pd.proof.pi_a.length) (hbl : 2 ≤ pd.proof.pi_b.length)
    (hb0 : 2 ≤ (pd.proof.pi_b.getD 0 []).length)
    (hb1 : 2 ≤ (pd.proof.pi_b.getD 1 []).length)
    (hc : 2 ≤ pd.proof.pi_c.length) :
    (generateProofRun chunks (Except.ok pd) s).1 = Except.ok (mkProofResults pd)
    ∧ (mkProofResults pd).onchain.proof = specFormatAdapter pd.proof
    ∧ (mkProofResults pd).onchain.proof.a.length = 2
    ∧ (mkProofResults pd).onchain.proof.b.length = 2
    ∧ (mkProofResults pd).onchain.proof.b.all (fun row => row.length == 2) = true
    ∧ (mkProofResults pd).onchain.proof.c.length = 2 := by
  have hA := take_two_of_le pd.proof.pi_a "" ha
  have hB := take_two_of_le pd.proof.pi_b [] hbl
  have hB0 := take_two_of_le (pd.proof.pi_b.getD 0 []) "" hb0
  have hB1 := take_two_of_le (pd.proof.pi_b.getD 1 []) "" hb1
  have hC := take_two_of_le pd.proof.pi_c "" hc
  refine ⟨rfl, ?_, rfl, rfl, rfl, rfl⟩
  show toOnchainProof pd.proof = specFormatAdapter pd.proof
  unfold toOnchainProof specFormatAdapter
  rw [hA, hB, hC]
  simp only [List.map_cons, List.map_nil, OnchainProof.mk.injEq]
  rw [hB0, hB1]
  simp

/-- Witness for C1 at a concrete snarkjs-shaped proof. -/
theorem generateProof_onchain_format_witness :
    2 ≤ demoPD.proof.pi_a.length
    ∧ ((generateProofRun [] (Except.ok demoPD) ⟨originalWrite, []⟩).1
          = Except.ok (mkProofResults demoPD)
        ∧ (mkProofResults demoPD).onchain.proof = specFormatAdapter demoPD.proof
        ∧ (mkProofResults demoPD).onchain.proof.a.length = 2
        ∧ (mkProofResults demoPD).onchain.proof.b.length = 2
        ∧ (mkProofResults demoPD).onchain.proof.b.all
            (fun row => row.length == 2) = true
        ∧ (mkProofResults demoPD).onchain.proof.c.length = 2) :=
  ⟨by decide,
   generateProof_onchain_format demoPD [] ⟨originalWrite, []⟩
     (by decide) (by decide) (by decide) (by decide) (by decide)⟩

/-! ## C5 -/

/-- C5: `generateProof` restores the original stderr write function no
matter whether the proving call returns or throws; during the call every
write goes through the hook, which swallows exactly the chunks containing
both marker phrases and forwards every other chunk unchanged to the
original write function. -/
theorem generateProof_stderr_hook_scoped (chunks : List String)
    (outcome : Except String ProofData) (s : PState) (chunk : String)
    (out : List String) :
    (generateProofRun chunks outcome s).2.writer = s.writer
    ∧ (generateProofRun chunks outcome s).2.sink
        = chunks.foldl (fun acc c => hookedWrite s.writer c acc) s.sink
    ∧ (suppressChunk chunk = true → hookedWrite s.writer chunk out = out)
    ∧ (suppressChunk chunk = false →
        hookedWrite s.writer chunk out = s.writer chunk out) := by
  refine ⟨rfl, rfl, ?_, ?_⟩ <;> intro h <;> simp [hookedWrite, h]

/-- Witness for C5: a memory-pressure diagnostic is swallowed, a genuine
error chunk is forwarded, and the writer is restored after a throwing
proving call. -/
theorem generateProof_stderr_hook_scoped_witness :
    suppressChunk "Could not allocate memory: risk of severe instability" = true
    ∧ hookedWrite originalWrite
        "Could not allocate memory: risk of severe instability" [] = []
    ∧ suppressChunk "genuine error" = false
    ∧ hookedWrite originalWrite "genuine error" []
        = originalWrite "genuine error" []
    ∧ (generateProofRun [] (Except.error "boom") ⟨originalWrite, []⟩).2.writer
        = originalWrite := by
  refine ⟨by decide, ?_, by decide, ?_, ?_⟩
  · exact (generateProof_stderr_hook_scoped [] (Except.error "boom")
      ⟨originalWrite, []⟩ "Could not allocate memory: risk of severe instability"
      []).2.2.1 (by decide)
  · exact (generateProof_stderr_hook_scoped [] (Except.error "boom")
      ⟨originalWrite, []⟩ "genuine error" []).2.2.2 (by decide)
  · exact (generateProof_stderr_hook_scoped [] (Except.error "boom")
      ⟨originalWrite, []⟩ "x" []).1

/-! ## C4 -/

/-- C4: under the spec's black-box contract for the verification library
(§4.3/§4.5: a total boolean verdict that only accepts a proof together
with its genuine public-signal list), `verifyProof` returns `false` — it
does not throw — whenever the supplied public signals differ from the
genuine ones of the proof being checked. -/
theorem verifyProof_mismatch_false {VKey : Type} (lib : SnarkjsLib VKey)
    (genuine : Proof → List String) (zkey : String) (proof : Proof)
    (ps : List String)
    (hsound : ∀ vk qs q, lib.groth16Verify vk qs q = true → qs = genuine q)
    (hmismatch : ps ≠ genuine proof) :
    verifyProof lib zkey proof ps = false := by
  have hdef : verifyProof lib zkey proof ps
      = lib.groth16Verify (lib.exportVerificationKey zkey) ps proof := rfl
  cases hb : lib.groth16Verify (lib.exportVerificationKey zkey) ps proof with
  | false => rw [hdef, hb]
  | true => exact absurd (hsound _ _ _ hb) hmismatch

/-- The genuine signal list of the a=2, b=3 proof: the single output "6". -/
def demoGenuine : Proof → List String := fun _ => ["6"]

/-- A library satisfying the spec's verification contract: accept exactly
the genuine signal list. -/
def demoLib : SnarkjsLib Unit :=
  { exportVerificationKey := fun _ => ()
  , groth16Verify := fun _ qs q => qs == demoGenuine q }

/-- Witness for C4: the a=2, b=3 proof checked against `["7"]` verifies to
`false`. -/
theorem verifyProof_mismatch_false_witness :
    (["7"] ≠ demoGenuine demoProofA)
    ∧ verifyProof demoLib (zkeyPath "multiplier2") demoProofA ["7"] = false := by
  refine ⟨by decide, verifyProof_mismatch_false demoLib demoGenuine
    (zkeyPath "multiplier2") demoProofA ["7"] ?_ (by decide)⟩
  intro vk qs q h
  exact eq_of_beq h

/-! ## C8 -/

/-- C8 counterexample: with a verifier that returns `true` and an empty
public-signal list, `check` does not return `true` with a `Verified`
event — it panics with the array-out-of-bounds code while reading
`_pubSignals[0]`. -/
theorem check_true_empty_signals_cex :
    check constTrueVerifier (0, 0) ((0, 0), (0, 0)) (0, 0) [] 7
      = CallResult.panic 50
    ∧ (check constTrueVerifier (0, 0) ((0, 0), (0, 0)) (0, 0) [] 7).isSuccess
        = false :=
  ⟨rfl, rfl⟩

/-- C8 amended: `check` reverts with "invalid proof" exactly when the
verifier returns `false`; when the verifier returns `true` and at least
one public signal is supplied, `check` emits `Verified(first signal,
caller)` and returns `true`. -/
theorem check_revert_iff_verifier_false (verifier : VerifierFn)
    (pA : Nat × Nat) (pB : (Nat × Nat) × (Nat × Nat)) (pC : Nat × Nat)
    (ps : List Nat) (sender : Nat) :
    (check verifier pA pB pC ps sender = CallResult.revertWith "invalid proof"
      ↔ verifier pA pB pC ps = false)
    ∧ (verifier pA pB pC ps = true → ps ≠ [] →
        check verifier pA pB pC ps sender
          = CallResult.success true [(ps.headD 0, sender)]) := by
  cases hb : verifier pA pB pC ps with
  | false =>
    refine ⟨by simp [check, hb], ?_⟩
    intro h
    simp [hb] at h
  | true =>
    cases ps with
    | nil =>
      refine ⟨by simp [check, hb], ?_⟩
      intro _ hne
      exact absurd rfl hne
    | cons s0 t =>
      exact ⟨by simp [check, hb], fun _ _ => by simp [check, hb]⟩

/-- Witness for C8 at a concrete always-true verifier and signals `[42]`. -/
theorem check_revert_iff_verifier_false_witness :
    (check constTrueVerifier (0, 0) ((0, 0), (0, 0)) (0, 0) [42] 5
        = CallResult.revertWith "invalid proof"
      ↔ constTrueVerifier (0, 0) ((0, 0), (0, 0)) (0, 0) [42] = false)
    ∧ check constTrueVerifier (0, 0) ((0, 0), (0, 0)) (0, 0) [42] 5
        = CallResult.success true [(42, 5)] :=
  ⟨(check_revert_iff_verifier_false constTrueVerifier (0, 0) ((0, 0), (0, 0))
      (0, 0) [42] 5).1,
   (check_revert_iff_verifier_false constTrueVerifier (0, 0) ((0, 0), (0, 0))
      (0, 0) [42] 5).2 rfl (by decide)⟩

/-! ## C10 -/

/-- C10: `check` with an empty `_pubSignals` always reverts — with the
array-out-of-bounds panic when the verifier returns `true` — and a normal
return requires a nonempty public-signal list. -/
theorem check_empty_signals_reverts (verifier : VerifierFn) (pA : Nat × Nat)
    (pB : (Nat × Nat) × (Nat × Nat)) (pC : Nat × Nat) (ps : List Nat)
    (sender : Nat) :
    (check verifier pA pB pC [] sender).isRevert = true
    ∧ (verifier pA pB pC [] = true →
        check verifier pA pB pC [] sender = CallResult.panic 50)
    ∧ ((check verifier pA pB pC ps sender).isSuccess = true → ps ≠ []) := by
  refine ⟨?_, ?_, ?_⟩
  · cases hb : verifier pA pB pC [] <;>
      simp [check, hb, CallResult.isRevert]
  · intro hb
    simp [check, hb]
  · intro hs hne
    subst hne
    cases hb : verifier pA pB pC [] <;>
      simp [check, hb, CallResult.isSuccess] at hs

/-- Witness for C10 with the always-true verifier. -/
theorem check_empty_signals_reverts_witness :
    (check constTrueVerifier (0, 0) ((0, 0), (0, 0)) (0, 0) [] 9).isRevert = true
    ∧ check constTrueVerifier (0, 0) ((0, 0), (0, 0)) (0, 0) [] 9
        = CallResult.panic 50
    ∧ ([1] ≠ ([] : List Nat)) :=
  ⟨(check_empty_signals_reverts constTrueVerifier (0, 0) ((0, 0), (0, 0))
      (0, 0) [1] 9).1,
   (check_empty_signals_reverts constTrueVerifier (0, 0) ((0, 0), (0, 0))
      (0, 0) [1] 9).2.1 rfl,
   (check_empty_signals_reverts constTrueVerifier (0, 0) ((0, 0), (0, 0))
      (0, 0) [1] 9).2.2 (by decide)⟩

/-! ## C6 -/

/-- The unshift loop builds the reversed list of the matching, existing
pnpm candidates, in front of the accumulator. -/
theorem pnpmUnshift_go (fs : List String) (cwd : String) (es : List String)
    (acc : List String) :
    es.foldl
      (fun acc2 e =>
        if jsStartsWith e "circom2@" then
          let c := pnpmCandidatePath cwd e
          if fs.contains c then c :: acc2 else acc2
        else acc2)
      acc
    = (matchedCandidates fs cwd es).reverse ++ acc := by
  induction es generalizing acc with
  | nil => simp [matchedCandidates]
  | cons e t ih =>
    rw [List.foldl_cons, ih]
    by_cases h1 : jsStartsWith e "circom2@" = true
    · by_cases h2 : fs.contains (pnpmCandidatePath cwd e) = true
      · have h2m : pnpmCandidatePath cwd e ∈ fs := by simpa using h2
        simp [matchedCandidates, h1, h2m]
      · have h2m : pnpmCandidatePath cwd e ∉ fs := by simpa using h2
        simp [matchedCandidates, h1, h2m]
    · simp [matchedCandidates, h1]

/-- `pnpmUnshift` is the reverse of the discovery-ordered candidate list. -/
theorem pnpmUnshift_eq_reverse (fs : List String) (cwd : String)
    (es : List String) :
    pnpmUnshift fs cwd es = (matchedCandidates fs cwd es).reverse := by
  have h := pnpmUnshift_go fs cwd es []
  simpa [pnpmUnshift] using h

/-- Every matched pnpm candidate exists on the filesystem. -/
theorem matchedCandidates_mem (fs : List String) (cwd : String)
    (es : List String) :
    ∀ c ∈ matchedCandidates fs cwd es, fs.contains c = true := by
  intro c hc
  simp only [matchedCandidates, List.mem_filterMap] at hc
  obtain ⟨e, _, he⟩ := hc
  by_cases h : (jsStartsWith e "circom2@" &&
      fs.contains (pnpmCandidatePath cwd e)) = true
  · rw [if_pos h] at he
    obtain ⟨_, h2⟩ := Bool.and_eq_true_iff.mp h
    cases he
    exact h2
  · rw [if_neg h] at he
    cases he

/-- `find?` never returns an element failing its predicate. -/
theorem option_all_find? (l : List String) (p : String → Bool) :
    Option.all p (l.find? p) = true := by
  cases h : l.find? p with
  | none => rfl
  | some a => simpa [Option.all] using List.find?_some h

/-- Searching a reversed all-satisfying block before a tail finds the
block's last element. -/
theorem find?_reverse_append (l rest : List String) (p : String → Bool)
    (hall : ∀ c ∈ l, p c = true) (hne : l ≠ []) :
    (l.reverse ++ rest).find? p = l.getLast? := by
  cases hrev : l.reverse with
  | nil =>
    exact absurd (by simpa using congrArg List.reverse hrev) hne
  | cons c t =>
    have hl : l = t.reverse ++ [c] := by
      have h2 := congrArg List.reverse hrev
      simpa using h2
    have hcl : c ∈ l := by
      rw [hl]
      simp
    have hlast : l.getLast? = some c := by
      rw [hl]
      simp
    rw [hlast]
    simp [List.find?_cons, hall c hcl]

/-- C6: the locator returns only existing paths; a missing or unreadable
pnpm store degrades to the two direct candidates (cli.js before the .bin
alias, first existing wins); and when matching store entries with existing
candidates are present, the most recently discovered one is returned,
ahead of the direct candidates. -/
theorem findCircom2_resolution (fs es : List String) (cwd : String) :
    Option.all (fun p => fs.contains p) (findCircom2 fs (some es) cwd) = true
    ∧ Option.all (fun p => fs.contains p) (findCircom2 fs none cwd) = true
    ∧ findCircom2 fs none cwd
        = [cliJsPath cwd, binAliasPath cwd].find? (fun p => fs.contains p)
    ∧ (fs.contains (pnpmDirPath cwd) = false →
        findCircom2 fs (some es) cwd
          = [cliJsPath cwd, binAliasPath cwd].find? (fun p => fs.contains p))
    ∧ (matchedCandidates fs cwd es = [] →
        findCircom2 fs (some es) cwd
          = [cliJsPath cwd, binAliasPath cwd].find? (fun p => fs.contains p))
    ∧ (fs.contains (pnpmDirPath cwd) = true →
        matchedCandidates fs cwd es ≠ [] →
        findCircom2 fs (some es) cwd = (matchedCandidates fs cwd es).getLast?) := by
  refine ⟨?_, ?_, ?_, ?_, ?_, ?_⟩
  · by_cases hd : fs.contains (pnpmDirPath cwd) = true <;>
      simp [findCircom2, hd, option_all_find?]
  · by_cases hd : fs.contains (pnpmDirPath cwd) = true <;>
      simp [findCircom2, hd, option_all_find?]
  · by_cases hd : fs.contains (pnpmDirPath cwd) = true <;>
      simp [findCircom2, hd]
  · intro hd
    have hdm : pnpmDirPath cwd ∉ fs := by simpa using hd
    simp [findCircom2, hdm]
  · intro hm
    by_cases hd : fs.contains (pnpmDirPath cwd) = true <;>
      simp [findCircom2, hd, pnpmUnshift_eq_reverse, hm]
  · intro hd hne
    simp only [findCircom2, hd, if_true, pnpmUnshift_eq_reverse]
    exact find?_reverse_append _ _ _ (matchedCandidates_mem fs cwd es) hne

/-- The filesystem for the C6 witness: the pnpm store, one nested
candidate, and the direct cli.js all exist. -/
def demoFS6 : List String :=
  [pnpmDirPath ".", pnpmCandidatePath "." "circom2@0.2.8", cliJsPath "."]

/-- The store listing for the C6 witness. -/
def demoEs : List String := ["foo", "circom2@0.2.8"]

/-- Witness for C6: the nested pnpm candidate is preferred over the
existing direct cli.js, and the returned path exists. -/
theorem findCircom2_resolution_witness :
    findCircom2 demoFS6 (some demoEs) "."
      = some (pnpmCandidatePath "." "circom2@0.2.8")
    ∧ demoFS6.contains (pnpmCandidatePath "." "circom2@0.2.8") = true := by
  refine ⟨?_, by decide⟩
  have h := (findCircom2_resolution demoFS6 demoEs ".").2.2.2.2.2
    (by decide) (by decide)
  rw [h]
  decide

/-! ## Pipeline helper lemmas -/

/-- Membership in a list survives appending on the right. -/
theorem contains_append_left (fs ext : List String) (p : String)
    (h : fs.contains p = true) : (fs ++ ext).contains p = true := by
  have hm : p ∈ fs := by simpa using h
  simp [List.mem_append, hm]

/-- Membership in the appended part. -/
theorem contains_append_right (fs ext : List String) (p : String)
    (h : ext.contains p = true) : (fs ++ ext).contains p = true := by
  have hm : p ∈ ext := by simpa using h
  simp [List.mem_append, hm]

/-- `contains` distributes over append. -/
theorem contains_append (l1 l2 : List String) (p : String) :
    (l1 ++ l2).contains p = (l1.contains p || l2.contains p) := by
  by_cases h1 : p ∈ l1 <;> by_cases h2 : p ∈ l2 <;>
    simp [List.mem_append, h1, h2]

/-- A successful external command run. -/
theorem runSnarkjs_ok (o : CmdOutcome) (creates : List String)
    (inv : Invocation) (fs : List String) (log : List Invocation)
    (h1 : o.spawnError = none) (h2 : o.status = 0) :
    runSnarkjs o creates inv fs log = .ok (fs ++ creates, log ++ [inv]) := by
  simp [runSnarkjs, h1, h2]

/-- What a successful `runCommand` tells us about its result. -/
theorem runSnarkjs_ok_shape (o : CmdOutcome) (creates : List String)
    (inv : Invocation) (fs fs1 : List String) (log log1 : List Invocation)
    (h : runSnarkjs o creates inv fs log = .ok (fs1, log1)) :
    fs1 = fs ++ creates ∧ log1 = log ++ [inv] := by
  unfold runSnarkjs at h
  cases hsp : o.spawnError with
  | some m => rw [hsp] at h; cases h
  | none =>
    rw [hsp] at h
    by_cases hst : o.status == 0
    · rw [if_pos hst] at h
      cases h
      exact ⟨rfl, rfl⟩
    · rw [if_neg hst] at h
      cases h

/-- The ptau block is a no-op when the prepared file exists. -/
theorem ptauStage_skip (env : ToolEnv) (fs : List String)
    (log : List Invocation) (h : fs.contains ptauPreparedPath = true) :
    ptauStage env fs log = .ok (fs, log) := by
  have hm : ptauPreparedPath ∈ fs := by simpa using h
  simp [ptauStage, hm]

/-- What a successful ptau block tells us about its result. -/
theorem ptauStage_ok_shape (env : ToolEnv) (fs fs1 : List String)
    (log log1 : List Invocation)
    (h : ptauStage env fs log = .ok (fs1, log1)) :
    fs1.contains ptauPreparedPath = true
    ∧ ∃ ext lext, fs1 = fs ++ ext ∧ log1 = log ++ lext
        ∧ lext ∈ ([[], [Invocation.ptauPrepare],
            [Invocation.ptauNew, Invocation.ptauPrepare]] :
              List (List Invocation)) := by
  unfold ptauStage at h
  by_cases hpp : fs.contains ptauPreparedPath = true
  · rw [if_pos hpp] at h
    cases h
    exact ⟨hpp, [], [], by simp, by simp, by simp⟩
  · rw [if_neg hpp] at h
    by_cases hpt : fs.contains ptauPath = true
    · rw [if_pos hpt] at h
      simp only [Except.bind] at h
      obtain ⟨h1, h2⟩ := runSnarkjs_ok_shape _ _ _ _ _ _ _ h
      subst h1
      subst h2
      exact ⟨contains_append_right _ _ _ (by decide), [ptauPreparedPath],
        [Invocation.ptauPrepare], rfl, rfl, by simp⟩
    · rw [if_neg hpt] at h
      cases hn : runSnarkjs env.ptauNew [ptauPath] Invocation.ptauNew fs log with
      | error e => rw [hn] at h; cases h
      | ok r2 =>
        obtain ⟨fs2, log2⟩ := r2
        rw [hn] at h
        simp only [Except.bind] at h
        obtain ⟨hn1, hn2⟩ := runSnarkjs_ok_shape _ _ _ _ _ _ _ hn
        obtain ⟨h1, h2⟩ := runSnarkjs_ok_shape _ _ _ _ _ _ _ h
        subst h1
        subst h2
        rw [hn1, hn2]
        refine ⟨contains_append_right _ _ _ (by decide),
          [ptauPath] ++ [ptauPreparedPath],
          [Invocation.ptauNew] ++ [Invocation.ptauPrepare],
          by simp, by simp, by simp⟩

/-- The zkey stage is a no-op when the key exists. -/
theorem zkeyStage_skip (env : ToolEnv) (n : String) (fs : List String)
    (log : List Invocation) (h : fs.contains (zkeyPath n) = true) :
    zkeyStage env n fs log = .ok (fs, log) := by
  have hm : zkeyPath n ∈ fs := by simpa using h
  simp [zkeyStage, hm]

/-- What a successful zkey stage tells us about its result. -/
theorem zkeyStage_ok_shape (env : ToolEnv) (n : String) (fs fs1 : List String)
    (log log1 : List Invocation)
    (h : zkeyStage env n fs log = .ok (fs1, log1)) :
    fs1.contains (zkeyPath n) = true
    ∧ ∃ ext lext, fs1 = fs ++ ext ∧ log1 = log ++ lext
        ∧ lext ∈ ([[], [Invocation.zkeySetup],
            [Invocation.ptauPrepare, Invocation.zkeySetup],
            [Invocation.ptauNew, Invocation.ptauPrepare, Invocation.zkeySetup]] :
              List (List Invocation)) := by
  unfold zkeyStage at h
  by_cases hz : fs.contains (zkeyPath n) = true
  · rw [if_pos hz] at h
    cases h
    exact ⟨hz, [], [], by simp, by simp, by simp⟩
  · rw [if_neg hz] at h
    cases hp : ptauStage env fs log with
    | error e => rw [hp] at h; cases h
    | ok r2 =>
      obtain ⟨fs2, log2⟩ := r2
      rw [hp] at h
      simp only [Except.bind] at h
      obtain ⟨h1, h2⟩ := runSnarkjs_ok_shape _ _ _ _ _ _ _ h
      obtain ⟨_, ext2, lext2, hp1, hp2, hpmem⟩ :=
        ptauStage_ok_shape _ _ _ _ _ hp
      subst h1
      subst h2
      rw [hp1, hp2]
      refine ⟨contains_append_right _ _ _ (by simp),
        ext2 ++ [zkeyPath n], lext2 ++ [Invocation.zkeySetup],
        by simp, by simp, ?_⟩
      simp only [List.mem_cons, List.not_mem_nil, or_false] at hpmem
      rcases hpmem with h3 | h3 | h3 <;> subst h3 <;> simp

/-- What a successful compile stage tells us about its result. -/
theorem compileStage_ok_shape (env : ToolEnv) (pnpmList : Option (List String))
    (cwd n : String) (fs fs1 : List String) (log1 : List Invocation)
    (h : compileStage env pnpmList cwd n fs = .ok (fs1, log1)) :
    fs1.contains (wasmPath n) = true
    ∧ ((fs1 = fs ∧ log1 = [])
        ∨ (fs1 = fs ++ env.circomCreates
            ∧ log1 = [Invocation.circomCompile])) := by
  unfold compileStage at h
  by_cases hw : fs.contains (wasmPath n) = true
  · rw [if_pos hw] at h
    cases h
    exact ⟨hw, Or.inl ⟨rfl, rfl⟩⟩
  · rw [if_neg hw] at h
    cases hq : findCircom2 fs pnpmList cwd with
    | none => rw [hq] at h; cases h
    | some q =>
      rw [hq] at h
      cases hce : env.circom.spawnError with
      | some m => rw [hce] at h; cases h
      | none =>
        rw [hce] at h
        by_cases hcs : (env.circom.status == 0) = true
        · rw [if_pos hcs] at h
          by_cases h2 : (fs ++ env.circomCreates).contains (wasmPath n) = true
          · rw [if_pos h2] at h
            cases h
            exact ⟨h2, Or.inr ⟨rfl, rfl⟩⟩
          · rw [if_neg h2] at h
            cases h
        · rw [if_neg hcs] at h
          cases h

/-- The compile stage under a good environment: it succeeds, the wasm
exists afterwards, and it is a strict no-op when the wasm already
existed. -/
theorem compileStage_good (env : ToolEnv) (pnpmList : Option (List String))
    (cwd n : String) (fs : List String)
    (hce : env.circom.spawnError = none) (hcs : env.circom.status = 0)
    (hcw : env.circomCreates.contains (wasmPath n) = true)
    (hfind : fs.contains (wasmPath n) = true
      ∨ (findCircom2 fs pnpmList cwd).isSome = true) :
    ∃ ext lext, compileStage env pnpmList cwd n fs = .ok (fs ++ ext, lext)
      ∧ (fs ++ ext).contains (wasmPath n) = true
      ∧ (fs.contains (wasmPath n) = true → ext = [] ∧ lext = [])
      ∧ (ext = [] ∨ ext = env.circomCreates) := by
  by_cases hw : fs.contains (wasmPath n) = true
  · refine ⟨[], [], ?_, by simpa using hw, fun _ => ⟨rfl, rfl⟩, Or.inl rfl⟩
    have hm : wasmPath n ∈ fs := by simpa using hw
    simp [compileStage, hm]
  · rcases hfind with hf | hf
    · exact absurd hf hw
    · obtain ⟨q, hq⟩ := Option.isSome_iff_exists.mp hf
      have h2 : (fs ++ env.circomCreates).contains (wasmPath n) = true :=
        contains_append_right _ _ _ hcw
      have hwm : wasmPath n ∉ fs := by simpa using hw
      have hcm : wasmPath n ∈ env.circomCreates := by simpa using hcw
      refine ⟨env.circomCreates, [Invocation.circomCompile], ?_, h2,
        fun hwt => absurd hwt hw, Or.inr rfl⟩
      simp [compileStage, hwm, hcm, hq, hce, hcs]

/-- The zkey stage under a good environment: it succeeds, the key exists
afterwards, it is a strict no-op when the key already existed, and when
the key was missing the prepared ceremony file exists afterwards. -/
theorem zkeyStage_good (env : ToolEnv) (n : String) (fs : List String)
    (log : List Invocation)
    (hpn1 : env.ptauNew.spawnError = none) (hpn2 : env.ptauNew.status = 0)
    (hpp1 : env.ptauPrepare.spawnError = none) (hpp2 : env.ptauPrepare.status = 0)
    (hzk1 : env.zkeySetup.spawnError = none) (hzk2 : env.zkeySetup.status = 0) :
    ∃ ext lext, zkeyStage env n fs log = .ok (fs ++ ext, log ++ lext)
      ∧ (fs ++ ext).contains (zkeyPath n) = true
      ∧ (fs.contains (zkeyPath n) = true → ext = [] ∧ lext = [])
      ∧ (fs.contains (zkeyPath n) = false →
          (fs ++ ext).contains ptauPreparedPath = true)
      ∧ lext.contains Invocation.circomCompile = false := by
  by_cases hz : fs.contains (zkeyPath n) = true
  · refine ⟨[], [], ?_, by simpa using hz, fun _ => ⟨rfl, rfl⟩,
      fun hzf => by rw [hzf] at hz; exact absurd hz (by decide), rfl⟩
    have h := zkeyStage_skip env n fs log hz
    simpa using h
  · by_cases hpp : fs.contains ptauPreparedPath = true
    · refine ⟨[zkeyPath n], [Invocation.zkeySetup], ?_,
        contains_append_right _ _ _ (by simp),
        fun hzt => absurd hzt hz,
        fun _ => contains_append_left _ _ _ hpp, rfl⟩
      unfold zkeyStage
      rw [if_neg hz, ptauStage_skip env fs log hpp]
      simp only [Except.bind]
      exact runSnarkjs_ok _ _ _ _ _ hzk1 hzk2
    · by_cases hpt : fs.contains ptauPath = true
      · have hps : ptauStage env fs log
            = .ok (fs ++ [ptauPreparedPath], log ++ [Invocation.ptauPrepare]) := by
          unfold ptauStage
          rw [if_neg hpp, if_pos hpt]
          simp only [Except.bind]
          exact runSnarkjs_ok _ _ _ _ _ hpp1 hpp2
        refine ⟨[ptauPreparedPath, zkeyPath n],
          [Invocation.ptauPrepare, Invocation.zkeySetup], ?_,
          contains_append_right _ _ _ (by simp),
          fun hzt => absurd hzt hz,
          fun _ => contains_append_right _ _ _ (by simp), by decide⟩
        unfold zkeyStage
        rw [if_neg hz, hps]
        simp only [Except.bind]
        rw [runSnarkjs_ok _ _ _ _ _ hzk1 hzk2]
        simp
      · have hps : ptauStage env fs log
            = .ok (fs ++ [ptauPath] ++ [ptauPreparedPath],
                log ++ [Invocation.ptauNew] ++ [Invocation.ptauPrepare]) := by
          unfold ptauStage
          rw [if_neg hpp, if_neg hpt]
          rw [runSnarkjs_ok _ _ _ _ _ hpn1 hpn2]
          simp only [Except.bind]
          exact runSnarkjs_ok _ _ _ _ _ hpp1 hpp2
        refine ⟨[ptauPath, ptauPreparedPath, zkeyPath n],
          [Invocation.ptauNew, Invocation.ptauPrepare, Invocation.zkeySetup], ?_,
          contains_append_right _ _ _ (by simp),
          fun hzt => absurd hzt hz,
          fun _ => contains_append_right _ _ _ (by simp), by decide⟩
        unfold zkeyStage
        rw [if_neg hz, hps]
        simp only [Except.bind]
        rw [runSnarkjs_ok _ _ _ _ _ hzk1 hzk2]
        simp

/-! ## C2 -/

/-- The filesystem of the C2 counterexample: the build directory, the
wasm, and the zkey exist, but neither ceremony-parameter file does. -/
def cexFS : List String :=
  [buildDir, wasmPath "multiplier2", zkeyPath "multiplier2"]

/-- C2 counterexample: when the key artifact exists but the
ceremony-parameter files do not, construction returns successfully without
creating them — afterwards neither ceremony file exists, so the
constructor does not ensure the ceremony-parameter files exist. -/
theorem constructor_ceremony_gap_cex :
    constructCircuit demoGoodEnv (some []) "." "multiplier2" cexFS
      = Except.ok (cexFS, [])
    ∧ cexFS.contains ptauPreparedPath = false
    ∧ cexFS.contains ptauPath = false
    ∧ cexFS.contains (wasmPath "multiplier2") = true
    ∧ cexFS.contains (zkeyPath "multiplier2") = true := by
  refine ⟨?_, by decide, by decide, by decide, by decide⟩
  rfl

/-- C2 amended: under a good environment (every external run succeeds and
the compiler writes the wasm), construction ensures the witness-generator
and key artifacts exist before returning; compilation runs only if the
witness generator is missing; stages whose outputs exist are skipped (in
particular, everything already present means no work at all); and the
ceremony-parameter files are ensured only when the key artifact was
missing. -/
theorem constructor_ensures_artifacts (env : ToolEnv)
    (pnpmList : Option (List String)) (cwd n : String) (fs : List String)
    (hb : fs.contains buildDir = true)
    (henv : GoodEnv env n)
    (hfind : fs.contains (wasmPath n) = true
      ∨ (findCircom2 fs pnpmList cwd).isSome = true) :
    resultHas (constructCircuit env pnpmList cwd n fs) (wasmPath n) = true
    ∧ resultHas (constructCircuit env pnpmList cwd n fs) (zkeyPath n) = true
    ∧ (fs.contains (wasmPath n) = true →
        (resultLog (constructCircuit env pnpmList cwd n fs)).contains
          Invocation.circomCompile = false)
    ∧ (fs.contains (wasmPath n) = true → fs.contains (zkeyPath n) = true →
        constructCircuit env pnpmList cwd n fs = Except.ok (fs, []))
    ∧ (fs.contains (zkeyPath n) = false →
        resultHas (constructCircuit env pnpmList cwd n fs) ptauPreparedPath
          = true) := by
  obtain ⟨hce, hcs, hcw, hcnz, hcnp, hpn1, hpn2, hpp1, hpp2, hzk1, hzk2⟩ := henv
  have hm : buildDir ∈ fs := by simpa using hb
  have hcon : constructCircuit env pnpmList cwd n fs
      = ensureCompiled env pnpmList cwd n fs := by
    simp [constructCircuit, hm]
  obtain ⟨ext, lext, hcsr, hwasm1, hskip1, hextor⟩ :=
    compileStage_good env pnpmList cwd n fs hce hcs hcw hfind
  obtain ⟨ext2, lext2, hzr, hzk, hskip2, hpp3, hnoc⟩ :=
    zkeyStage_good env n (fs ++ ext) lext hpn1 hpn2 hpp1 hpp2 hzk1 hzk2
  have hall : constructCircuit env pnpmList cwd n fs
      = Except.ok ((fs ++ ext) ++ ext2, lext ++ lext2) := by
    rw [hcon]
    unfold ensureCompiled
    rw [hcsr]
    simp only [Except.bind]
    exact hzr
  rw [hall]
  simp only [resultHas, resultLog]
  refine ⟨contains_append_left _ _ _ hwasm1, hzk, ?_, ?_, ?_⟩
  · intro hwt
    obtain ⟨he, hl⟩ := hskip1 hwt
    subst he
    subst hl
    simpa using hnoc
  · intro hwt hzt
    obtain ⟨he, hl⟩ := hskip1 hwt
    subst he
    subst hl
    have hzt2 : (fs ++ ([] : List String)).contains (zkeyPath n) = true := by
      simpa using hzt
    obtain ⟨he2, hl2⟩ := hskip2 hzt2
    subst he2
    subst hl2
    simp
  · intro hzf
    have hextz : ext.contains (zkeyPath n) = false := by
      rcases hextor with he | he <;> subst he
      · rfl
      · exact hcnz
    have hzf2 : (fs ++ ext).contains (zkeyPath n) = false := by
      rw [contains_append, hzf, hextz]
      rfl
    exact hpp3 hzf2

/-- The filesystem of the C2/C3/C7 witnesses: an empty build tree with the
direct circom2 cli.js installed. -/
def demoFS2 : List String := [buildDir, cliJsPath "."]

/-- Witness for C2 (amended): a full run from the empty build tree. -/
theorem constructor_ensures_artifacts_witness :
    resultHas (constructCircuit demoGoodEnv (some []) "." "multiplier2" demoFS2)
      (wasmPath "multiplier2") = true
    ∧ resultHas (constructCircuit demoGoodEnv (some []) "." "multiplier2" demoFS2)
        (zkeyPath "multiplier2") = true
    ∧ resultHas (constructCircuit demoGoodEnv (some []) "." "multiplier2" demoFS2)
        ptauPreparedPath = true := by
  have h := constructor_ensures_artifacts demoGoodEnv (some []) "." "multiplier2"
    demoFS2 (by decide)
    ⟨rfl, rfl, by decide, by decide, by decide, rfl, rfl, rfl, rfl, rfl, rfl⟩
    (Or.inr (by decide))
  exact ⟨h.1, h.2.1, h.2.2.2.2 (by decide)⟩

/-! ## C3 -/

/-- C3: constructing the pipeline twice in succession performs each piece
of external work at most once — a successful first construction logs each
invocation at most once, and the second construction finds every artifact
present, changes nothing, and invokes no external tool. -/
theorem pipeline_construction_idempotent (env : ToolEnv)
    (pnpmList : Option (List String)) (cwd n : String) (fs fs1 : List String)
    (log1 : List Invocation)
    (h1 : constructCircuit env pnpmList cwd n fs = Except.ok (fs1, log1)) :
    constructCircuit env pnpmList cwd n fs1 = Except.ok (fs1, [])
    ∧ log1.count Invocation.circomCompile ≤ 1
    ∧ log1.count Invocation.ptauNew ≤ 1
    ∧ log1.count Invocation.ptauPrepare ≤ 1
    ∧ log1.count Invocation.zkeySetup ≤ 1 := by
  simp only [constructCircuit, ensureCompiled] at h1
  set fs0 := if fs.contains buildDir then fs else fs ++ [buildDir] with hfs0
  cases hc : compileStage env pnpmList cwd n fs0 with
  | error e => rw [hc] at h1; cases h1
  | ok rA =>
    obtain ⟨fsA, logA⟩ := rA
    rw [hc] at h1
    simp only [Except.bind] at h1
    obtain ⟨hwA, hshapeA⟩ :=
      compileStage_ok_shape env pnpmList cwd n fs0 fsA logA hc
    obtain ⟨hzk1c, ext2, lext2, hfs1, hlog1, hmem2⟩ :=
      zkeyStage_ok_shape env n fsA fs1 logA log1 h1
    have hb0 : fs0.contains buildDir = true := by
      rw [hfs0]
      by_cases hbb : fs.contains buildDir = true
      · rw [if_pos hbb]
        exact hbb
      · rw [if_neg hbb]
        exact contains_append_right _ _ _ (by simp)
    have hbd1 : fs1.contains buildDir = true := by
      rw [hfs1]
      apply contains_append_left
      rcases hshapeA with ⟨he, _⟩ | ⟨he, _⟩ <;> rw [he]
      · exact hb0
      · exact contains_append_left _ _ _ hb0
    have hw1 : fs1.contains (wasmPath n) = true := by
      rw [hfs1]
      exact contains_append_left _ _ _ hwA
    constructor
    · have hmw : wasmPath n ∈ fs1 := by simpa using hw1
      have hcs2 : compileStage env pnpmList cwd n fs1 = Except.ok (fs1, []) := by
        simp [compileStage, hmw]
      simp only [constructCircuit, ensureCompiled]
      rw [if_pos hbd1, hcs2]
      simp only [Except.bind]
      exact zkeyStage_skip env n fs1 [] hzk1c
    · have hlogA : logA = [] ∨ logA = [Invocation.circomCompile] := by
        rcases hshapeA with ⟨_, hl⟩ | ⟨_, hl⟩
        · exact Or.inl hl
        · exact Or.inr hl
      rw [hlog1]
      simp only [List.mem_cons, List.not_mem_nil, or_false] at hmem2
      rcases hmem2 with h4 | h4 | h4 | h4 <;> subst h4 <;>
        rcases hlogA with hl | hl <;> subst hl <;> decide

/-- Witness for C3: the concrete first run from the empty build tree and
the resulting no-op second run. -/
theorem pipeline_construction_idempotent_witness :
    constructCircuit demoGoodEnv (some []) "." "multiplier2" demoFS2
      = Except.ok (demoFS2 ++ demoGoodEnv.circomCreates
          ++ [ptauPath] ++ [ptauPreparedPath] ++ [zkeyPath "multiplier2"],
          [Invocation.circomCompile, Invocation.ptauNew,
           Invocation.ptauPrepare, Invocation.zkeySetup])
    ∧ (constructCircuit demoGoodEnv (some []) "." "multiplier2"
        (demoFS2 ++ demoGoodEnv.circomCreates
          ++ [ptauPath] ++ [ptauPreparedPath] ++ [zkeyPath "multiplier2"])
        = Except.ok (demoFS2 ++ demoGoodEnv.circomCreates
            ++ [ptauPath] ++ [ptauPreparedPath] ++ [zkeyPath "multiplier2"], [])
      ∧ ([Invocation.circomCompile, Invocation.ptauNew,
          Invocation.ptauPrepare, Invocation.zkeySetup]).count
            Invocation.circomCompile ≤ 1
      ∧ ([Invocation.circomCompile, Invocation.ptauNew,
          Invocation.ptauPrepare, Invocation.zkeySetup]).count
            Invocation.ptauNew ≤ 1
      ∧ ([Invocation.circomCompile, Invocation.ptauNew,
          Invocation.ptauPrepare, Invocation.zkeySetup]).count
            Invocation.ptauPrepare ≤ 1
      ∧ ([Invocation.circomCompile, Invocation.ptauNew,
          Invocation.ptauPrepare, Invocation.zkeySetup]).count
            Invocation.zkeySetup ≤ 1) := by
  have h1 : constructCircuit demoGoodEnv (some []) "." "multiplier2" demoFS2
      = Except.ok (demoFS2 ++ demoGoodEnv.circomCreates
          ++ [ptauPath] ++ [ptauPreparedPath] ++ [zkeyPath "multiplier2"],
          [Invocation.circomCompile, Invocation.ptauNew,
           Invocation.ptauPrepare, Invocation.zkeySetup]) := by rfl
  exact ⟨h1, pipeline_construction_idempotent demoGoodEnv (some []) "."
    "multiplier2" demoFS2 _ _ h1⟩

/-! ## C7 -/

/-- `prefixMatch l []` holds for every `l`. -/
theorem prefixMatch_nil (l : List Char) : prefixMatch l [] = true := by
  cases l <;> rfl

/-- A list is a prefix of itself followed by anything. -/
theorem prefixMatch_self_append (l r : List Char) :
    prefixMatch (l ++ r) l = true := by
  induction l with
  | nil => exact prefixMatch_nil r
  | cons a t ih => simp [prefixMatch, ih]

/-- `(a ++ b).startsWith(a)` always holds. -/
theorem jsStartsWith_self_append (a b : String) :
    jsStartsWith (a ++ b) a = true := by
  have hd : (a ++ b).data = a.data ++ b.data := by
    cases a
    cases b
    rfl
  unfold jsStartsWith
  rw [hd]
  exact prefixMatch_self_append a.data b.data

/-- C7: with the witness generator missing, a failed toolchain lookup
makes construction throw the (unwrapped) missing-toolchain error, which
does not carry the compilation-error prefix; a located compiler that exits
non-zero (or fails to spawn) makes construction throw a wrapped
compilation error — carrying the exit status verbatim in the non-zero
case — and every wrapped message starts with the compilation-error
prefix. -/
theorem toolchain_vs_compilation_errors (env : ToolEnv)
    (pnpmList : Option (List String)) (cwd n q m : String) (fs : List String)
    (hb : fs.contains buildDir = true)
    (hw : fs.contains (wasmPath n) = false) :
    (findCircom2 fs pnpmList cwd = none →
      constructCircuit env pnpmList cwd n fs = Except.error circom2NotFoundMsg)
    ∧ jsStartsWith circom2NotFoundMsg compileErrHead = false
    ∧ (findCircom2 fs pnpmList cwd = some q → env.circom.spawnError = none →
        env.circom.status ≠ 0 →
        constructCircuit env pnpmList cwd n fs
          = Except.error (compileWrap n
              ("circom2 exited with code " ++ toString env.circom.status)))
    ∧ (findCircom2 fs pnpmList cwd = some q → env.circom.spawnError = some m →
        constructCircuit env pnpmList cwd n fs
          = Except.error (compileWrap n m))
    ∧ jsStartsWith (compileWrap n m) compileErrHead = true := by
  have hm : buildDir ∈ fs := by simpa using hb
  have hwm : wasmPath n ∉ fs := by simpa using hw
  refine ⟨?_, by decide, ?_, ?_, ?_⟩
  · intro hq
    simp [constructCircuit, ensureCompiled, compileStage, hm, hwm, hq,
      Except.bind]
  · intro hq hsp hst
    have hb0 : (env.circom.status == 0) = false := by
      simpa using hst
    simp [constructCircuit, ensureCompiled, compileStage, hm, hwm, hq, hsp,
      hb0, Except.bind]
  · intro hq hsp
    simp [constructCircuit, ensureCompiled, compileStage, hm, hwm, hq, hsp,
      Except.bind]
  · unfold compileWrap
    exact jsStartsWith_self_append compileErrHead _

/-- The environment of the C7 witness: the compiler exits with code 1. -/
def demoBadEnv : ToolEnv :=
  { circom := { spawnError := none, status := 1 }
  , circomCreates := []
  , ptauNew := demoOutcomeOk
  , ptauPrepare := demoOutcomeOk
  , zkeySetup := demoOutcomeOk }

/-- Witness for C7: a concrete rejected compilation and the prefix facts
distinguishing the two error kinds. -/
theorem toolchain_vs_compilation_errors_witness :
    constructCircuit demoBadEnv (some []) "." "multiplier2" demoFS2
      = Except.error (compileWrap "multiplier2"
          ("circom2 exited with code " ++ toString (1 : Int)))
    ∧ jsStartsWith circom2NotFoundMsg compileErrHead = false
    ∧ jsStartsWith (compileWrap "multiplier2"
        ("circom2 exited with code " ++ toString (1 : Int)))
        compileErrHead = true := by
  have h := toolchain_vs_compilation_errors demoBadEnv (some []) "."
    "multiplier2" (cliJsPath ".")
    ("circom2 exited with code " ++ toString (1 : Int)) demoFS2
    (by decide) (by decide)
  exact ⟨h.2.2.1 (by rfl) rfl (by decide), h.2.1, h.2.2.2.2⟩

end CircomKit
